import Mathlib

/-!
Verification of the kgrok session-multiplexing tunnel engine (`tunnel.go`)
against its natural-language specification.  The Go source is shallowly
embedded: pure code becomes Lean functions, each loop becomes a function
over an explicit trace of the events (received frames, context
observations, I/O results) it consumes, and the actions it performs
(lock, unlock, sends, reads, writes, publishes) are recorded in source
order so that locking discipline is a statement about the emitted trace.
-/

namespace Kgrok

/-- Go strings, embedded as lists of characters so that the behaviour of
`strings.Split` can be reasoned about by structural induction. -/
abbrev GoStr := List Char

/-- Go error values relevant to the tunnel engine.  `canceled` and
`deadlineExceeded` are the two sentinel errors a done `context.Context`
can report from `Err()`; `msg` is an opaque error; `wrapNew s e` is
`xerrors.New(s, e)`; `wrapper e w` is the non-nil/non-nil case of
`xerrors.WithWrapper(e, w)`; `appended a b` is the non-nil/non-nil case
of `xerrors.Append(a, b)`. -/
inductive GErr where
  | canceled
  | deadlineExceeded
  | eof
  | msg (s : String)
  | wrapNew (s : String) (e : GErr)
  | wrapper (e w : GErr)
  | appended (a b : GErr)
deriving Repr, DecidableEq

/-- Modelled from the spec: `xerrors.WithWrapper(err, werr)` (the
go-xerrors library is not part of this repository).  The spec says the
orchestrator "returns the cancellation cause merged with the
concatenation of all Send Loop errors", so the merge keeps whichever
side is non-nil and combines both when both are non-nil; a nil merged
with a nil is nil. -/
def withWrapper : Option GErr → Option GErr → Option GErr
  | none, w => w
  | some e, none => some e
  | some e, some w => some (.wrapper e w)

/-- Modelled from the spec: `xerrors.Append(err, e)` (go-xerrors is not
part of this repository).  Nil errors are ignored — the repository's own
`KubeDelete` relies on `xerrors.Append(nil, errs...)` being nil when all
appended errors are nil — and two non-nil errors form a multi-error. -/
def xAppend : Option GErr → Option GErr → Option GErr
  | none, w => w
  | some e, none => some e
  | some e, some w => some (.appended e w)

/-! ## Port specification parser (`ParsePorts`) -/

/-- `strings.Split(s, ":")`: split around every colon, keeping empty
parts, never returning an empty list. -/
def splitColon : GoStr → List GoStr
  | [] => [[]]
  | c :: cs =>
    if c = ':' then [] :: splitColon cs
    else
      match splitColon cs with
      | [] => [[c]]
      | p :: ps => (c :: p) :: ps

/-- Numeric value of a digit string, most significant digit first. -/
def digitsVal (s : GoStr) : Nat :=
  s.foldl (fun a c => a * 10 + (c.toNat - 48)) 0

/-- `strconv.ParseUint(s, 10, 16)`: succeeds exactly on a nonempty
string of ASCII decimal digits whose value fits in 16 bits (no sign
prefix, no other characters), returning the value; `none` models a
non-nil error. -/
def parseUint16 (s : GoStr) : Option Nat :=
  if s.isEmpty || s.any (fun c => !c.isDigit) || decide (65536 ≤ digitsVal s) then
    none
  else
    some (digitsVal s)

/-- One (local, remote) forwarding pair, field names as in the Go
struct `ForwardedPort`. -/
structure ForwardedPort where
  Local : Nat
  Remote : Nat
deriving Repr, DecidableEq

/-- The errors `ParsePorts` can return, tagged by the `fmt.Errorf` site
that produced them, carrying the string interpolated into the message. -/
inductive PortErr where
  | invalidFormat (spec : GoStr)
  | parseLocal (s : GoStr)
  | parseRemote (s : GoStr)
  | remoteZero
deriving Repr, DecidableEq

/-- The `fmt.Errorf` message for each `ParsePorts` error (format verbs
substituted; the `%s` of the wrapped `strconv` error elided). -/
def PortErr.message : PortErr → GoStr
  | .invalidFormat s => "invalid port format '".data ++ s ++ "'".data
  | .parseLocal s => "error parsing local port '".data ++ s ++ "'".data
  | .parseRemote s => "error parsing remote port '".data ++ s ++ "'".data
  | .remoteZero => "remote port must be > 0".data

/-- The spec's error taxonomy: format-or-parse errors are
`FormatError`s, the remote-zero error is the `ValidationError`. -/
def PortErr.isFormatError : PortErr → Bool
  | .invalidFormat _ => true
  | .parseLocal _ => true
  | .parseRemote _ => true
  | .remoteZero => false

/-- The string the error message names, when it names one. -/
def PortErr.named : PortErr → Option GoStr
  | .invalidFormat s => some s
  | .parseLocal s => some s
  | .parseRemote s => some s
  | .remoteZero => none

/-- The tail of the `ParsePorts` loop body once the local and remote
strings are fixed: parse both with `ParseUint(·, 10, 16)` (local
first), then reject a remote of zero. -/
def parsePortParts (localString remoteString : GoStr) :
    Except PortErr ForwardedPort :=
  match parseUint16 localString with
  | none => .error (.parseLocal localString)
  | some localPort =>
    match parseUint16 remoteString with
    | none => .error (.parseRemote remoteString)
    | some remotePort =>
      if remotePort = 0 then .error .remoteZero
      else .ok ⟨localPort, remotePort⟩

/-- One iteration of the `ParsePorts` loop: split on colons; one part
means `REMOTE` doubles as `LOCAL`; two parts mean `LOCAL:REMOTE` with an
empty `LOCAL` normalized to `"0"`; anything else is the format error. -/
def parsePort (portString : GoStr) : Except PortErr ForwardedPort :=
  if (splitColon portString).length = 1 then
    parsePortParts ((splitColon portString).getD 0 [])
      ((splitColon portString).getD 0 [])
  else if (splitColon portString).length = 2 then
    parsePortParts
      (if (splitColon portString).getD 0 [] = [] then "0".data
        else (splitColon portString).getD 0 [])
      ((splitColon portString).getD 1 [])
  else .error (.invalidFormat portString)

/-- `ParsePorts`: fold `parsePort` over the specs in order, returning
the full list of pairs or the first error (the Go loop returns
`nil, err` on the first failing spec, so no partial result escapes). -/
def ParsePorts : List GoStr → Except PortErr (List ForwardedPort)
  | [] => .ok []
  | p :: ps =>
    match parsePort p with
    | .error e => .error e
    | .ok fp =>
      match ParsePorts ps with
      | .error e => .error e
      | .ok fps => .ok (fp :: fps)

/-! ## Tunnel engine data model

Sessions, frames and the per-loop event traces.  A session id is the
parsed UUID, embedded abstractly as a `Nat`; `0` stands for `uuid.Nil`,
the placeholder a malformed id parses to. -/

abbrev SessionId := Nat

/-- Modelled from the spec: `common.Session` (the ktunnel `common`
package is not part of this repository) — "`{id, connection, buffer:
growable byte queue, open: boolean, guard, doneSignal}`".  Only the
fields the tunnel engine reads and writes are kept: the id, the byte
buffer and the open flag; the connection and the guard appear as
recorded actions instead of state. -/
structure Session where
  Id : SessionId
  Buf : List Nat
  Open : Bool
deriving Repr, DecidableEq

/-- An outbound `pb.SocketDataRequest` data frame as built by the tunnel
engine (the initial frame's port/scheme metadata is not carried by data
frames and is omitted). -/
structure Frame where
  requestId : SessionId
  data : List Nat
  shouldClose : Bool
deriving Repr, DecidableEq

/-- An inbound `pb.SocketDataResponse`.  `requestId` is the UUID the
frame carries and `idParseOk` records whether `uuid.Parse` accepts it;
on failure the loop proceeds with the zero placeholder id. -/
structure SocketDataResponse where
  requestId : SessionId
  idParseOk : Bool
  data : List Nat
  shouldClose : Bool
deriving Repr, DecidableEq

/-- The session id a frame is processed under: the parsed id, or
`uuid.Nil` (= 0) when parsing failed (the parse failure is logged and
the frame is still processed — the lenient boundary). -/
def SocketDataResponse.parsedId (m : SocketDataResponse) : SessionId :=
  if m.idParseOk then m.requestId else 0

/-- The error a done context reports from `Err()`: always one of
`context.Canceled` or `context.DeadlineExceeded`, regardless of the
recorded cancellation cause. -/
inductive CtxErr where
  | canceled
  | deadlineExceeded
deriving Repr, DecidableEq

/-- The Go error value of a `CtxErr`. -/
def CtxErr.toGErr : CtxErr → GErr
  | .canceled => .canceled
  | .deadlineExceeded => .deadlineExceeded

/-- What a task can observe about a done context: `ctxErr` is what
`Err()` returns, `cause` is what `context.Cause` would return (the
first cancellation's cause; `GErr.canceled` for a plain external
cancel).  The tunnel code only ever consults `ctxErr`. -/
structure CtxDoneState where
  ctxErr : CtxErr
  cause : GErr
deriving Repr, DecidableEq

/-- The atomic actions a loop performs, recorded in source order, used
to state locking discipline and I/O ordering. -/
inductive Action where
  | lock (sid : SessionId)
  | unlock (sid : SessionId)
  | streamSend
  | connRead (sid : SessionId)
  | connWrite (sid : SessionId)
  | publish (sid : SessionId)
  | closeConn (sid : SessionId)
  | closeSend
deriving Repr, DecidableEq

/-- Whether a loop run terminated (with the Go function's returned
error) or was still running when its event trace was exhausted. -/
inductive LoopRes where
  | finished (err : Option GErr)
  | running
deriving Repr, DecidableEq

/-! ## Send Loop (`SendData`) -/

/-- One event consumed by the `SendData` select: either the stream
context is observed done (with the given `Err()` value), or a ready
`Session` is received from the readiness channel.  The `Session` carried
by `ready` is its state at the moment the loop acquires its lock, and
`sendErr` is the result of the subsequent `stream.Send`. -/
inductive SendEvent where
  | ctxDone (e : CtxErr)
  | ready (session : Session) (sendErr : Option GErr)
deriving Repr, DecidableEq

/-- The body of one `ready` iteration of `SendData`, under the session's
lock: `bys := session.Buf.Len()`, read exactly `bys` bytes (the whole
buffer, FIFO), and build the response frame with `ShouldClose = !Open`.
Returns the built frame and the drained session. -/
def sendStep (session : Session) : Frame × Session :=
  let bytes := session.Buf
  (⟨session.Id, bytes, !session.Open⟩, { session with Buf := [] })

/-- `bytes.Buffer.Read(p)`: returns an error (`io.EOF`) only when the
buffer is empty and `len(p) > 0`; `SendData` always passes
`len(p) = Buf.Len()`, so its read-error branch requires `Buf.Len() > 0`
with an empty buffer — impossible. -/
def bufReadErr (bufLen want : Nat) : Option GErr :=
  if bufLen = 0 ∧ 0 < want then some .eof else none

/-- Output of a Send Loop run. -/
structure SendOut where
  actions : List Action
  frames : List Frame
  res : LoopRes
deriving Repr, DecidableEq

/-- `SendData` over an event trace.  On a done context it returns `nil`
iff `Err()` is `context.Canceled`, else that error.  On a ready session
it locks, drains the whole buffer, builds the frame, unlocks, and only
then performs the blocking `stream.Send`; a send failure is returned as
the loop's error, otherwise the loop continues. -/
def sendData : List SendEvent → SendOut
  | [] => ⟨[], [], .running⟩
  | .ctxDone e :: _ =>
    ⟨[], [], .finished (if e = .canceled then none else some e.toGErr)⟩
  | .ready session sendErr :: rest =>
    let (resp, _) := sendStep session
    let acts := [.lock session.Id, .unlock session.Id, .streamSend]
    match sendErr with
    | some e => ⟨acts, [resp], .finished (some e)⟩
    | none =>
      let out := sendData rest
      ⟨acts ++ out.actions, resp :: out.frames, out.res⟩

/-! ## Applying an inbound frame (`handleStreamData`) -/

/-- `handleStreamData(m, session)`: a closed session is closed again
(idempotent) and the frame is swallowed; otherwise a non-empty payload
is written to the local connection — with the session lock held around
the write — and a write failure closes the session. `writeErr` is the
environment's result for `session.Conn.Write`. Returns the recorded
actions and whether `session.Close()` was invoked. -/
def handleStreamData (m : SocketDataResponse) (session : Session)
    (writeErr : Option GErr) : List Action × Bool :=
  if session.Open = false then
    ([.closeConn session.Id], true)
  else if m.data.length > 0 then
    let acts := [.lock session.Id, .connWrite session.Id, .unlock session.Id]
    match writeErr with
    | some _ => (acts ++ [.closeConn session.Id], true)
    | none => (acts, false)
  else
    ([], false)

/-! ## Receive Loop (`ReceiveData`) -/

/-- The session registry (ktunnel's `common` store: `GetSession` /
`NewSessionFromStream`), embedded as the association list of registered
sessions, threaded through the loop that is its sole reader and
writer. -/
abbrev Registry := List (SessionId × Session)

/-- `common.GetSession`: registry lookup. -/
def getSession (reg : Registry) (id : SessionId) : Option Session :=
  (reg.find? (fun p => p.1 = id)).map Prod.snd

/-- Store an updated session back under its id. -/
def putSession (reg : Registry) (s : Session) : Registry :=
  reg.map (fun p => if p.1 = s.Id then (p.1, s) else p)

/-- Environment results consumed by one non-cancelled `ReceiveData`
iteration: the 500 ms local dial's outcome (consulted only for an
unknown id), the result of sending the close reply after a dial
failure, and the result of `session.Conn.Write` inside
`handleStreamData`. -/
structure RecvEnv where
  dialErr : Option GErr
  replySendErr : Option GErr
  writeErr : Option GErr
deriving Repr, DecidableEq

/-- One event consumed by `ReceiveData`: either `st.Recv()` fails, or a
frame arrives together with what the subsequent select observes about
the stream context (`some` when `Done` has fired) — `closeSendErr`
being the result `st.CloseSend()` would return — and the environment
results for processing the frame. -/
inductive RecvEvent where
  | recvErr (e : GErr)
  | recvMsg (m : SocketDataResponse) (ctxDone : Option CtxDoneState)
      (env : RecvEnv) (closeSendErr : Option GErr)
deriving Repr, DecidableEq

/-- Output of a Receive Loop run. -/
structure RecvOut where
  actions : List Action
  frames : List Frame
  reg : Registry
  res : LoopRes
deriving Repr, DecidableEq

/-- `ReceiveData` over an event trace, threading the registry.
A `Recv` failure terminates the loop with that error wrapped.  A done
context half-closes the outbound direction and returns the half-close
result when `Err()` is `context.Canceled`, else `Err()` wrapped with the
half-close result (the recorded cancellation cause is never consulted).
Otherwise the frame is processed: an unknown id is dialled locally —
on failure exactly one `{id, shouldClose:true}` reply is sent (a reply
send failure is only logged) and the loop continues without
registering anything; on success a fresh open session is registered
(its Inbound Reader is launched, modelled separately) — a known id
with `shouldClose` is marked closed, and `handleStreamData` applies the
payload. -/
def receiveData (reg : Registry) : List RecvEvent → RecvOut
  | [] => ⟨[], [], reg, .running⟩
  | .recvErr e :: _ =>
    ⟨[], [], reg, .finished (some (.wrapNew "error reading from stream" e))⟩
  | .recvMsg m ctxDone env closeSendErr :: rest =>
    match ctxDone with
    | some cds =>
      if cds.ctxErr = .canceled then
        ⟨[.closeSend], [], reg, .finished closeSendErr⟩
      else
        ⟨[.closeSend], [], reg,
          .finished (withWrapper (some cds.ctxErr.toGErr) closeSendErr)⟩
    | none =>
      let requestId := m.parsedId
      match getSession reg requestId with
      | none =>
        match env.dialErr with
        | some _ =>
          let resp : Frame := ⟨requestId, [], true⟩
          let out := receiveData reg rest
          ⟨.streamSend :: out.actions, resp :: out.frames, out.reg, out.res⟩
        | none =>
          let session : Session := ⟨requestId, [], true⟩
          let reg1 := (requestId, session) :: reg
          let (hacts, _) := handleStreamData m session env.writeErr
          let out := receiveData reg1 rest
          ⟨hacts ++ out.actions, out.frames, out.reg, out.res⟩
      | some session =>
        let session1 :=
          if m.shouldClose then { session with Open := false } else session
        let reg1 := putSession reg session1
        let (hacts, _) := handleStreamData m session1 env.writeErr
        let out := receiveData reg1 rest
        ⟨hacts ++ out.actions, out.frames, out.reg, out.res⟩

/-! ## Inbound Reader (`ReadFromSession`) -/

/-- One event consumed by a `ReadFromSession` iteration: either
`conn.Read` fails (including EOF), or it returns a chunk of bytes
(`buff[0:br]`); `ctxDone` is whether the session context is observed
done by the subsequent select, and `bufWriteErr` the environment's
result for `session.Buf.Write` (consulted only when the chunk is
non-empty). -/
inductive ReadEvent where
  | readErr (e : GErr)
  | readOk (chunk : List Nat) (ctxDone : Bool) (bufWriteErr : Option GErr)
deriving Repr, DecidableEq

/-- Output of an Inbound Reader run: recorded actions, final session
state, and whether the reader returned. -/
structure ReadOut where
  actions : List Action
  session : Session
  terminated : Bool
deriving Repr, DecidableEq

/-- `ReadFromSession` over an event trace.  A read failure (EOF or not)
marks the session closed, publishes it once and returns.  A successful
read observed after cancellation returns without publishing.  Otherwise
the chunk is appended to the buffer under the lock and the session is
published — unless the buffer write failed, in which case the reader
returns at once, leaving `Open` untouched and publishing nothing. -/
def readFromSession (session : Session) : List ReadEvent → ReadOut
  | [] => ⟨[], session, false⟩
  | .readErr _ :: _ =>
    ⟨[.connRead session.Id, .publish session.Id],
      { session with Open := false }, true⟩
  | .readOk chunk ctxDone bufWriteErr :: rest =>
    if ctxDone then
      ⟨[.connRead session.Id], session, true⟩
    else
      let acts := [.connRead session.Id, .lock session.Id, .unlock session.Id]
      if chunk.length > 0 ∧ bufWriteErr.isSome then
        ⟨acts, session, true⟩
      else
        let session1 := { session with Buf := session.Buf ++ chunk }
        let out := readFromSession session1 rest
        ⟨acts ++ [.publish session.Id] ++ out.actions, out.session,
          out.terminated⟩

/-! ## Interleaving of one Session's reader with the Send Loop -/

/-- One scheduler step for a single session shared by its Inbound
Reader and the Send Loop: either the reader appends a chunk it read
from the local connection (under the lock), or the Send Loop processes
one readiness activation — `sendStep`: drain the whole buffer into one
frame.  The schedule order is arbitrary, modelling any interleaving the
lock permits. -/
inductive SessEvent where
  | read (chunk : List Nat)
  | drain
deriving Repr, DecidableEq

/-- Run a schedule over one session: returns the frames emitted for it
on the duplex channel, in send order, and the final session state. -/
def sessionRun (session : Session) : List SessEvent → List Frame × Session
  | [] => ([], session)
  | .read chunk :: rest =>
    sessionRun { session with Buf := session.Buf ++ chunk } rest
  | .drain :: rest =>
    let (f, session1) := sendStep session
    let out := sessionRun session1 rest
    (f :: out.1, out.2)

/-- The chunks a schedule reads, in read order. -/
def schedChunks : List SessEvent → List (List Nat)
  | [] => []
  | .read chunk :: rest => chunk :: schedChunks rest
  | .drain :: rest => schedChunks rest

/-! ## Tunnel orchestrator (`Tunnel`) -/

/-- The per-pair results of one `Tunnel` run: the `InitTunnel` outcome,
the initial `stream.Send(req)` outcome, and — for a launched pair —
the values returned by its Receive Loop and its Send Loop. -/
structure PairRun where
  initErr : Option GErr
  initSendErr : Option GErr
  recvRes : Option GErr
  sendRes : Option GErr
deriving Repr, DecidableEq

/-- The launch loop of `Tunnel`: walk the pairs in order; the first
`InitTunnel` or initial-send failure cancels the shared context with a
wrapped cause and stops launching (`break`).  Returns the launched
pairs and the cancellation cause recorded by that failure, if any. -/
def tunnelLaunch : List PairRun → List PairRun × Option GErr
  | [] => ([], none)
  | p :: ps =>
    match p.initErr with
    | some e => ([], some (.wrapNew "failed initializing tunnel" e))
    | none =>
      match p.initSendErr with
      | some e => ([], some (.wrapNew "failed sending initial tunnel request" e))
      | none =>
        let out := tunnelLaunch ps
        (p :: out.1, out.2)

/-- The errors collected at the join point: each launched pair's Send
Loop result appended with `xerrors.Append` (the Receive Loop's result
is discarded where the goroutine is launched). -/
def collectErrs (launched : List PairRun) : Option GErr :=
  launched.foldl (fun errs p => xAppend errs p.sendRes) none

/-- `Tunnel(ctx, port, fps)`.  `dialErr` is the initial `grpc.Dial`
outcome; `externalCancel` states whether the parent context was
cancelled (a plain external cancel) before the join point, and
`externalFirst` whether that happened before any init-failure cancel
(the first cancellation of a context wins and fixes the cause).  After
the join, the result is `context.Cause(ctx)` — `context.Canceled` for
an external cancel, the wrapped init failure otherwise, `nil` if the
context never became done — merged by `xerrors.WithWrapper` with the
collected Send Loop errors. -/
def Tunnel (dialErr : Option GErr) (externalCancel externalFirst : Bool)
    (pairs : List PairRun) : Option GErr :=
  match dialErr with
  | some e => some (.wrapNew "failed to dial" e)
  | none =>
    let (launched, initCause) := tunnelLaunch pairs
    let cause : Option GErr :=
      if externalCancel ∧ (externalFirst ∨ initCause = none) then
        some .canceled
      else initCause
    withWrapper cause (collectErrs launched)

/-! ## Parser lemmas -/

theorem parseUint16_eq_some {s : GoStr} {v : Nat} (h : parseUint16 s = some v) :
    s ≠ [] ∧ s.all (fun c => c.isDigit) = true ∧ digitsVal s = v := by
  unfold parseUint16 at h
  split at h
  · exact absurd h (by simp)
  · rename_i hcond
    simp only [Bool.or_eq_true, not_or] at hcond
    obtain ⟨⟨h1, h2⟩, -⟩ := hcond
    refine ⟨?_, ?_, by injection h⟩
    · intro hnil
      subst hnil
      exact h1 rfl
    · rw [List.all_eq_true]
      intro c hc
      by_contra hcd
      refine h2 (List.any_eq_true.mpr ⟨c, hc, ?_⟩)
      cases hd : c.isDigit with
      | true => exact absurd hd hcd
      | false => simp [hd]

theorem all_digits_no_colon {s : GoStr}
    (h : s.all (fun c => c.isDigit) = true) : ∀ c ∈ s, c ≠ ':' := by
  intro c hc hcol
  have hd := List.all_eq_true.mp h c hc
  subst hcol
  exact absurd hd (by decide)

theorem splitColon_no_colon {s : GoStr} (h : ∀ c ∈ s, c ≠ ':') :
    splitColon s = [s] := by
  induction s with
  | nil => rfl
  | cons c cs ih =>
    have hc : c ≠ ':' := h c (by simp)
    have ih' := ih (fun d hd => h d (by simp [hd]))
    simp [splitColon, hc, ih']

theorem splitColon_append {l : GoStr} (r : GoStr) (h : ∀ c ∈ l, c ≠ ':') :
    splitColon (l ++ ':' :: r) = l :: splitColon r := by
  induction l with
  | nil => simp [splitColon]
  | cons c cs ih =>
    have hc : c ≠ ':' := h c (by simp)
    have ih' := ih (fun d hd => h d (by simp [hd]))
    simp [splitColon, hc, ih']

/-- A string accepted by `parseUint16` contains no colon. -/
theorem parseUint16_some_no_colon {s : GoStr} {v : Nat}
    (h : parseUint16 s = some v) : ∀ c ∈ s, c ≠ ':' :=
  all_digits_no_colon (parseUint16_eq_some h).2.1

/-! ## C7 / C8: the port specification parser -/

/-- C7: for well-formed specs, a bare `REMOTE` yields local = remote =
the same value, `LOCAL:REMOTE` sets both explicitly, a leading colon
`:REMOTE` yields local 0; in particular `"8080"` parses to
`{local 8080, remote 8080}` and `":5000"` to `{local 0, remote 5000}`,
and a list of well-formed specs parses to the full list of pairs. -/
theorem parsePorts_wellformed_specs
    (l r : GoStr) (lv rv : Nat)
    (hl : parseUint16 l = some lv)
    (hr : parseUint16 r = some rv) (hrnz : rv ≠ 0) :
    parsePort r = .ok ⟨rv, rv⟩ ∧
    parsePort (l ++ ':' :: r) = .ok ⟨lv, rv⟩ ∧
    parsePort (':' :: r) = .ok ⟨0, rv⟩ ∧
    ParsePorts ["8080".data, ":5000".data] = .ok [⟨8080, 8080⟩, ⟨0, 5000⟩] := by
  have hrsplit : splitColon r = [r] :=
    splitColon_no_colon (parseUint16_some_no_colon hr)
  have hlr : splitColon (l ++ ':' :: r) = [l, r] := by
    rw [splitColon_append r (parseUint16_some_no_colon hl), hrsplit]
  have hcr : splitColon (':' :: r) = [[], r] := by
    have : (':' :: r) = [] ++ ':' :: r := rfl
    rw [this, splitColon_append r (by intro c hc; cases hc), hrsplit]
  have hlnil : l ≠ [] := (parseUint16_eq_some hl).1
  refine ⟨?_, ?_, ?_, rfl⟩
  · simp only [parsePort, hrsplit, List.length_singleton, List.getD]
    simp [parsePortParts, hr, hrnz]
  · simp only [parsePort, hlr]
    simp only [List.length_cons, List.length_nil, List.getD]
    simp [parsePortParts, hl, hr, hrnz, hlnil]
  · simp only [parsePort, hcr]
    simp only [List.length_cons, List.length_nil, List.getD]
    simp [parsePortParts, hr, hrnz, show parseUint16 "0".data = some 0 by decide]

/-- C7 witness at `"80:5000"` and friends. -/
theorem parsePorts_wellformed_specs_witness :
    parsePort "5000".data = .ok ⟨5000, 5000⟩ ∧
    parsePort ("80".data ++ ':' :: "5000".data) = .ok ⟨80, 5000⟩ ∧
    parsePort (':' :: "5000".data) = .ok ⟨0, 5000⟩ ∧
    ParsePorts ["8080".data, ":5000".data] = .ok [⟨8080, 8080⟩, ⟨0, 5000⟩] :=
  parsePorts_wellformed_specs "80".data "5000".data 80 5000
    (by decide) (by decide) (by decide)

/-- C8: any spec with more than one colon fails with the FormatError
naming that spec; a non-numeric or out-of-16-bit-range port fails with
a FormatError naming the offending colon-component of the spec; a
remote value of 0 fails with the ValidationError whose message is
"remote port must be > 0"; and the parse is pure, returning either the
full sequence or the first error encountered (no partial result). -/
theorem parsePorts_error_cases :
    (∀ s a b c rest, splitColon s = a :: b :: c :: rest →
      parsePort s = .error (.invalidFormat s) ∧
      (PortErr.invalidFormat s).isFormatError = true ∧
      (PortErr.invalidFormat s).named = some s) ∧
    (∀ s p, splitColon s = [p] → parseUint16 p = none →
      parsePort s = .error (.parseLocal p) ∧
      (PortErr.parseLocal p).isFormatError = true ∧ p ∈ splitColon s) ∧
    (∀ s l r, splitColon s = [l, r] → l ≠ [] → parseUint16 l = none →
      parsePort s = .error (.parseLocal l) ∧
      (PortErr.parseLocal l).isFormatError = true ∧ l ∈ splitColon s) ∧
    (∀ s l r lv, splitColon s = [l, r] →
      parseUint16 (if l = [] then "0".data else l) = some lv →
      parseUint16 r = none →
      parsePort s = .error (.parseRemote r) ∧
      (PortErr.parseRemote r).isFormatError = true ∧ r ∈ splitColon s) ∧
    (∀ s p, splitColon s = [p] → parseUint16 p = some 0 →
      parsePort s = .error .remoteZero) ∧
    (∀ s l r lv, splitColon s = [l, r] →
      parseUint16 (if l = [] then "0".data else l) = some lv →
      parseUint16 r = some 0 →
      parsePort s = .error .remoteZero) ∧
    (PortErr.remoteZero.isFormatError = false ∧
      PortErr.remoteZero.message = "remote port must be > 0".data) ∧
    (∀ specs e, ParsePorts specs = .error e →
      ∃ pre sp post, specs = pre ++ sp :: post ∧
        (∀ q ∈ pre, ∃ fp, parsePort q = .ok fp) ∧ parsePort sp = .error e) ∧
    (∀ specs fps, ParsePorts specs = .ok fps →
      List.Forall₂ (fun sp fp => parsePort sp = .ok fp) specs fps) := by
  refine ⟨?_, ?_, ?_, ?_, ?_, ?_, ⟨rfl, rfl⟩, ?_, ?_⟩
  · intro s a b c rest h
    have h1 : ¬(splitColon s).length = 1 := by
      rw [h]; simp only [List.length_cons]; omega
    have h2 : ¬(splitColon s).length = 2 := by
      rw [h]; simp only [List.length_cons]; omega
    exact ⟨by simp [parsePort, h1, h2], rfl, rfl⟩
  · intro s p h hp
    refine ⟨?_, rfl, by rw [h]; simp⟩
    simp [parsePort, h, parsePortParts, hp]
  · intro s l r h hlnil hp
    refine ⟨?_, rfl, by rw [h]; simp⟩
    simp [parsePort, h, parsePortParts, hlnil, hp]
  · intro s l r lv h hl hr
    refine ⟨?_, rfl, by rw [h]; simp⟩
    simp only [parsePort, h, List.length_cons, List.length_nil,
      List.getD_cons_zero, List.getD_cons_succ]
    norm_num
    simp [parsePortParts, hl, hr]
  · intro s p h hp
    simp [parsePort, h, parsePortParts, hp]
  · intro s l r lv h hl hr
    simp only [parsePort, h, List.length_cons, List.length_nil,
      List.getD_cons_zero, List.getD_cons_succ]
    norm_num
    simp [parsePortParts, hl, hr]
  · intro specs
    induction specs with
    | nil => intro e h; simp [ParsePorts] at h
    | cons q qs ih =>
      intro e h
      simp only [ParsePorts] at h
      cases hq : parsePort q with
      | error e0 =>
        rw [hq] at h
        injection h with h'
        subst h'
        exact ⟨[], q, qs, rfl, by simp, hq⟩
      | ok fp =>
        rw [hq] at h
        cases hqs : ParsePorts qs with
        | error e1 =>
          rw [hqs] at h
          injection h with h'
          subst h'
          obtain ⟨pre, sp, post, rfl, hpre, hsp⟩ := ih e1 hqs
          refine ⟨q :: pre, sp, post, rfl, ?_, hsp⟩
          intro x hx
          rcases List.mem_cons.mp hx with rfl | hx
          · exact ⟨fp, hq⟩
          · exact hpre x hx
        | ok fps =>
          rw [hqs] at h
          cases h
  · intro specs
    induction specs with
    | nil =>
      intro fps h
      simp only [ParsePorts] at h
      injection h with h'
      subst h'
      exact List.Forall₂.nil
    | cons q qs ih =>
      intro fps h
      simp only [ParsePorts] at h
      cases hq : parsePort q with
      | error e0 => rw [hq] at h; cases h
      | ok fp =>
        rw [hq] at h
        cases hqs : ParsePorts qs with
        | error e1 => rw [hqs] at h; cases h
        | ok fps0 =>
          rw [hqs] at h
          injection h with h'
          subst h'
          exact List.Forall₂.cons hq (ih fps0 hqs)

/-- C8 witness: `"1:2:3"` fails with the format error naming itself,
`"abc:80"` with the parse error naming `abc`, `"99999"` (out of 16-bit
range) with the parse error naming it, `"80:0"` with the validation
error, and the one-element list `["abc:80"]` yields that first error. -/
theorem parsePorts_error_cases_witness :
    parsePort "1:2:3".data = .error (.invalidFormat "1:2:3".data) ∧
    parsePort "abc:80".data = .error (.parseLocal "abc".data) ∧
    parsePort "99999".data = .error (.parseLocal "99999".data) ∧
    parsePort "80:0".data = .error .remoteZero :=
  ⟨(parsePorts_error_cases.1 "1:2:3".data "1".data "2".data "3".data [] rfl).1,
    (parsePorts_error_cases.2.2.1 "abc:80".data "abc".data "80".data rfl
      (by decide) rfl).1,
    (parsePorts_error_cases.2.1 "99999".data "99999".data rfl rfl).1,
    parsePorts_error_cases.2.2.2.2.2.1 "80:0".data "80".data "0".data 80
      rfl (by decide) rfl⟩

/-! ## Locking discipline -/

/-- Scan an action trace: `true` iff no blocking I/O action (duplex
channel send, local-socket read, local-socket write) occurs while a
Session's lock is held (the first argument is the lock state; locks do
not nest in this engine). -/
def noIOWhileLocked : Bool → List Action → Bool
  | _, [] => true
  | false, .lock _ :: rest => noIOWhileLocked true rest
  | false, _ :: rest => noIOWhileLocked false rest
  | true, .unlock _ :: rest => noIOWhileLocked false rest
  | true, .streamSend :: _ => false
  | true, .connRead _ :: _ => false
  | true, .connWrite _ :: _ => false
  | true, _ :: rest => noIOWhileLocked true rest

/-- Like `noIOWhileLocked` but flagging only the duplex-channel send
and the local-socket read — the discipline `handleStreamData` actually
maintains (its local-socket write happens under the lock). -/
def noChanIOWhileLocked : Bool → List Action → Bool
  | _, [] => true
  | false, .lock _ :: rest => noChanIOWhileLocked true rest
  | false, _ :: rest => noChanIOWhileLocked false rest
  | true, .unlock _ :: rest => noChanIOWhileLocked false rest
  | true, .streamSend :: _ => false
  | true, .connRead _ :: _ => false
  | true, _ :: rest => noChanIOWhileLocked true rest

/-- Concatenation of byte chunks, in order. -/
def joinChunks : List (List Nat) → List Nat
  | [] => []
  | c :: cs => c ++ joinChunks cs

/-! ## C3: the Send Loop's drain-and-send discipline -/

/-- C3: on a readiness activation the Send Loop drains exactly the
entire buffer present under the lock, captures the open flag, and
builds one frame `{id, drained bytes, shouldClose = !open}`; the
buffer is left empty; the in-buffer read can never fail (it asks for
exactly `Buf.Len()` bytes); the lock/unlock pair precedes the blocking
send; and an activation for an already-closed, empty session leaves the
session unchanged, emits an empty close frame, and does not terminate
the loop (when the send itself succeeds). -/
theorem sendData_activation (session : Session) (sendErr : Option GErr)
    (rest : List SendEvent) :
    (sendData (.ready session sendErr :: rest)).frames.head? =
      some ⟨session.Id, session.Buf, !session.Open⟩ ∧
    (sendStep session).2.Buf = [] ∧
    bufReadErr session.Buf.length session.Buf.length = none ∧
    (sendData (.ready session sendErr :: rest)).actions.take 3 =
      [.lock session.Id, .unlock session.Id, .streamSend] ∧
    (session.Open = false → session.Buf = [] → sendErr = none →
      (sendData (.ready session sendErr :: rest)).res = (sendData rest).res ∧
      (sendStep session).2 = session ∧
      (sendData (.ready session sendErr :: rest)).frames.head? =
        some ⟨session.Id, [], true⟩) := by
  refine ⟨?_, rfl, ?_, ?_, ?_⟩
  · cases sendErr <;> simp [sendData, sendStep]
  · simp [bufReadErr]
  · cases sendErr <;> simp [sendData, sendStep]
  · intro hopen hbuf hsend
    subst hsend
    refine ⟨by simp [sendData, sendStep], ?_, ?_⟩
    · cases session with
      | mk i b o => simp_all [sendStep]
    · simp [sendData, sendStep, hopen, hbuf]

/-- C3 witness: a closed, empty session activated with a succeeding
send. -/
theorem sendData_activation_witness :
    (sendData [.ready ⟨7, [], false⟩ none]).res = (sendData []).res ∧
    (sendStep ⟨7, [], false⟩).2 = ⟨7, [], false⟩ ∧
    (sendData [.ready ⟨7, [], false⟩ none]).frames.head? =
      some ⟨7, [], true⟩ :=
  (sendData_activation ⟨7, [], false⟩ none []).2.2.2.2 rfl rfl rfl

/-! ## C4: lock never held across blocking I/O -/

/-- The invariant as the spec states it, over every task of the engine:
no blocking I/O of any kind — duplex send, socket read or socket
write — while a Session's lock is held. -/
def lockDisciplineEverywhere : Prop :=
  (∀ evs, noIOWhileLocked false (sendData evs).actions = true) ∧
  (∀ s evs, noIOWhileLocked false (readFromSession s evs).actions = true) ∧
  (∀ m s w, noIOWhileLocked false (handleStreamData m s w).1 = true)

/-- C4 counterexample: `handleStreamData` holds the Session's lock
across the local-socket write — delivering payload `[1]` to an open
session records `[lock, connWrite, unlock]`. -/
theorem handleStreamData_write_under_lock_cex : ¬ lockDisciplineEverywhere :=
  fun h =>
    absurd (h.2.2 ⟨1, true, [1], false⟩ ⟨1, [], true⟩ none) (by decide)

/-- A `handleStreamData` action block keeps the duplex-send/socket-read
discipline, whatever follows it. -/
theorem noChanIO_handle_append (m : SocketDataResponse) (s : Session)
    (w : Option GErr) (as : List Action) :
    noChanIOWhileLocked false ((handleStreamData m s w).1 ++ as) =
      noChanIOWhileLocked false as := by
  unfold handleStreamData
  split
  · simp [noChanIOWhileLocked]
  · split
    · cases w <;> simp [noChanIOWhileLocked]
    · simp [noChanIOWhileLocked]

/-- C4 amended: the Send Loop and the Inbound Reader never hold the
lock across any blocking I/O, and the Receive Loop (including
`handleStreamData`) never holds it across a duplex-channel send or a
local-socket read — but `handleStreamData` does hold it across its
local-socket write, so the spec's blanket claim holds only with that
exception. -/
theorem lock_discipline_amended :
    (∀ evs, noIOWhileLocked false (sendData evs).actions = true) ∧
    (∀ s evs, noIOWhileLocked false (readFromSession s evs).actions = true) ∧
    (∀ m s w, noChanIOWhileLocked false (handleStreamData m s w).1 = true) ∧
    (∀ reg evs, noChanIOWhileLocked false (receiveData reg evs).actions = true) := by
  refine ⟨?_, ?_, ?_, ?_⟩
  · intro evs
    induction evs with
    | nil => rfl
    | cons ev rest ih =>
      cases ev with
      | ctxDone e => simp [sendData, noIOWhileLocked]
      | ready s se =>
        cases se <;> simp [sendData, noIOWhileLocked, ih]
  · intro s evs
    induction evs generalizing s with
    | nil => rfl
    | cons ev rest ih =>
      cases ev with
      | readErr e => simp [readFromSession, noIOWhileLocked]
      | readOk chunk cd we =>
        cases cd
        · by_cases hc : chunk.length > 0 ∧ we.isSome
          · simp [readFromSession, hc, noIOWhileLocked]
          · simp [readFromSession, hc, noIOWhileLocked, ih]
        · simp [readFromSession, noIOWhileLocked]
  · intro m s w
    rw [show (handleStreamData m s w).1 = (handleStreamData m s w).1 ++ [] by simp]
    rw [noChanIO_handle_append]
    rfl
  · intro reg evs
    induction evs generalizing reg with
    | nil => rfl
    | cons ev rest ih =>
      cases ev with
      | recvErr e => simp [receiveData, noChanIOWhileLocked]
      | recvMsg m cd env csr =>
        cases cd with
        | some cds =>
          by_cases hc : cds.ctxErr = .canceled <;>
            simp [receiveData, hc, noChanIOWhileLocked]
        | none =>
          cases hg : getSession reg m.parsedId with
          | none =>
            cases hd : env.dialErr with
            | some e =>
              simp [receiveData, hg, hd, noChanIOWhileLocked, ih]
            | none =>
              simp only [receiveData, hg, hd]
              rw [noChanIO_handle_append]
              exact ih _
          | some s =>
            simp only [receiveData, hg]
            rw [noChanIO_handle_append]
            exact ih _

/-! ## C5: per-session byte stream preserved -/

/-- C5: for every interleaving of the Inbound Reader's appends with the
Send Loop's drains on one Session, the concatenation of the frame
payloads sent for that session, in send order, plus the bytes still
buffered, equals the initial buffer plus the concatenation of the
chunks read, in read order; every frame carries the session's id; so
when the buffer started and ended empty, the bytes on the duplex
channel are exactly the bytes read — no loss, no reordering, no
duplication (trailing empty drains contribute nothing). -/
theorem sessionRun_no_loss_no_reorder (session : Session)
    (evs : List SessEvent) :
    joinChunks ((sessionRun session evs).1.map Frame.data) ++
        (sessionRun session evs).2.Buf =
      session.Buf ++ joinChunks (schedChunks evs) ∧
    (∀ f ∈ (sessionRun session evs).1, f.requestId = session.Id) ∧
    (session.Buf = [] → (sessionRun session evs).2.Buf = [] →
      joinChunks ((sessionRun session evs).1.map Frame.data) =
        joinChunks (schedChunks evs)) := by
  have main : ∀ (evs : List SessEvent) (s : Session),
      joinChunks ((sessionRun s evs).1.map Frame.data) ++
          (sessionRun s evs).2.Buf =
        s.Buf ++ joinChunks (schedChunks evs) := by
    intro evs
    induction evs with
    | nil => intro s; simp [sessionRun, schedChunks, joinChunks]
    | cons ev rest ih =>
      intro s
      cases ev with
      | read c =>
        have := ih { s with Buf := s.Buf ++ c }
        simpa [sessionRun, schedChunks, joinChunks, List.append_assoc]
          using this
      | drain =>
        have := ih { s with Buf := [] }
        simp [sessionRun, schedChunks, joinChunks, sendStep,
          List.append_assoc] at this ⊢
        simp [this]
  have ids : ∀ (evs : List SessEvent) (s : Session),
      ∀ f ∈ (sessionRun s evs).1, f.requestId = s.Id := by
    intro evs
    induction evs with
    | nil => intro s f hf; simp [sessionRun] at hf
    | cons ev rest ih =>
      intro s f hf
      cases ev with
      | read c =>
        simpa using ih { s with Buf := s.Buf ++ c } f
          (by simpa [sessionRun] using hf)
      | drain =>
        simp only [sessionRun, sendStep] at hf
        rcases List.mem_cons.mp hf with rfl | hf
        · rfl
        · simpa using ih { s with Buf := [] } f hf
  refine ⟨main evs session, ids evs session, ?_⟩
  intro h0 hend
  have := main evs session
  rw [h0, hend] at this
  simpa using this

/-- C5 witness: two reads interleaved with drains, ending flushed. -/
theorem sessionRun_no_loss_no_reorder_witness :
    joinChunks ((sessionRun ⟨5, [], true⟩
        [.read [1, 2], .drain, .read [3], .drain]).1.map Frame.data) =
      joinChunks (schedChunks
        [SessEvent.read [1, 2], .drain, .read [3], .drain]) :=
  (sessionRun_no_loss_no_reorder ⟨5, [], true⟩
      [.read [1, 2], .drain, .read [3], .drain]).2.2 rfl rfl

/-! ## C6: unknown session id with failing local dial -/

/-- C6: an inbound frame whose parsed session id is unknown to the
registry and whose local 500 ms dial fails makes the Receive Loop send
exactly one reply frame `{id, empty payload, shouldClose = true}`,
register no Session, and continue: the run is that one send and one
frame prepended to whatever the remaining trace yields, with the
registry threaded through unchanged. -/
theorem receiveData_dial_failure (reg : Registry) (m : SocketDataResponse)
    (env : RecvEnv) (csr : Option GErr) (rest : List RecvEvent) (e : GErr)
    (hunknown : getSession reg m.parsedId = none)
    (hdial : env.dialErr = some e) :
    receiveData reg (.recvMsg m none env csr :: rest) =
      ⟨.streamSend :: (receiveData reg rest).actions,
        ⟨m.parsedId, [], true⟩ :: (receiveData reg rest).frames,
        (receiveData reg rest).reg,
        (receiveData reg rest).res⟩ := by
  simp [receiveData, hunknown, hdial]

/-- C6 witness: a single unknown-id frame with a refused dial. -/
theorem receiveData_dial_failure_witness :
    receiveData []
        [.recvMsg ⟨3, true, [], false⟩ none
          ⟨some (.msg "refused"), none, none⟩ none] =
      ⟨[.streamSend], [⟨3, [], true⟩], [], .running⟩ :=
  (receiveData_dial_failure [] ⟨3, true, [], false⟩
      ⟨some (.msg "refused"), none, none⟩ none [] (.msg "refused")
      rfl rfl).trans rfl

/-! ## C2: Receive Loop cancellation behaviour -/

/-- The cancellation behaviour the spec claims for the Receive Loop:
branch on the recorded cancellation *cause* — terminate silently when
it is a plain external cancel, and return the cause wrapped with the
half-close result when it is an error. -/
def recvCancelCauseClaim : Prop :=
  ∀ (reg : Registry) (m : SocketDataResponse) (cds : CtxDoneState)
    (env : RecvEnv) (csr : Option GErr) (rest : List RecvEvent),
    (cds.cause = .canceled →
      (receiveData reg (.recvMsg m (some cds) env csr :: rest)).res =
        .finished none) ∧
    (cds.cause ≠ .canceled →
      (receiveData reg (.recvMsg m (some cds) env csr :: rest)).res =
        .finished (withWrapper (some cds.cause) csr))

/-- C2 counterexample: the code branches on the done context's `Err()`
(always `context.Canceled` after a cancel, whatever the cause), never
on `context.Cause`: observing cancellation whose recorded cause is the
error `"init failed"` still takes the clean branch and returns the
half-close result `nil`, not the wrapped cause. -/
theorem receiveData_cancel_cause_cex : ¬ recvCancelCauseClaim := by
  intro h
  have := (h [] ⟨0, true, [], false⟩ ⟨.canceled, .msg "init failed"⟩
      ⟨none, none, none⟩ none []).2 (by decide)
  exact absurd this (by decide)

/-- Any subtrace whose run ends in an error termination contains a
receive failure or a done-context observation: no other event — in
particular no dial failure — can terminate the loop with an error. -/
theorem receiveData_error_source :
    ∀ (trace : List RecvEvent) (reg : Registry) (err : GErr),
      (receiveData reg trace).res = .finished (some err) →
      ∃ ev ∈ trace, (∃ e1, ev = .recvErr e1) ∨
        (∃ m1 cds1 env1 csr1, ev = .recvMsg m1 (some cds1) env1 csr1) := by
  intro trace
  induction trace with
  | nil => intro reg err h; simp [receiveData] at h
  | cons ev rest ih =>
    intro reg err h
    cases ev with
    | recvErr e1 => exact ⟨_, by simp, Or.inl ⟨e1, rfl⟩⟩
    | recvMsg m1 ctxDone env1 csr1 =>
      cases ctxDone with
      | some cds1 => exact ⟨_, by simp, Or.inr ⟨m1, cds1, env1, csr1, rfl⟩⟩
      | none =>
        have step : ∃ reg1,
            (receiveData reg (.recvMsg m1 none env1 csr1 :: rest)).res =
              (receiveData reg1 rest).res := by
          cases hg : getSession reg m1.parsedId with
          | none =>
            cases hd : env1.dialErr with
            | some e => exact ⟨reg, by simp [receiveData, hg, hd]⟩
            | none =>
              exact ⟨(m1.parsedId, ⟨m1.parsedId, [], true⟩) :: reg,
                by simp [receiveData, hg, hd]⟩
          | some s =>
            exact ⟨putSession reg
                (if m1.shouldClose then { s with Open := false } else s),
              by simp [receiveData, hg]⟩
        obtain ⟨reg1, hstep⟩ := step
        rw [hstep] at h
        obtain ⟨ev, hev, hcase⟩ := ih reg1 err h
        exact ⟨ev, by simp [hev], hcase⟩

/-- C2 amended: on observing a done context the Receive Loop always
performs the half-close; it returns the half-close's own result when
`Err()` is `context.Canceled` — regardless of the recorded cancellation
cause, which is never consulted — and otherwise returns `Err()` wrapped
with the half-close result.  A receive failure terminates the loop with
that failure wrapped, and those two observations are the only sources
of an error termination: a dial timeout is never escalated. -/
theorem receiveData_cancellation (reg : Registry) (m : SocketDataResponse)
    (cds : CtxDoneState) (env : RecvEnv) (csr : Option GErr)
    (rest : List RecvEvent) (e0 : GErr) :
    (receiveData reg (.recvMsg m (some cds) env csr :: rest) =
      ⟨[.closeSend], [], reg,
        .finished (if cds.ctxErr = .canceled then csr
          else withWrapper (some cds.ctxErr.toGErr) csr)⟩) ∧
    (receiveData reg (.recvErr e0 :: rest) =
      ⟨[], [], reg,
        .finished (some (.wrapNew "error reading from stream" e0))⟩) ∧
    (∀ err, env.dialErr = some e0 → getSession reg m.parsedId = none →
      (receiveData reg (.recvMsg m none env csr :: rest)).res =
        .finished (some err) →
      (receiveData reg rest).res = .finished (some err)) ∧
    (∀ trace err, (receiveData reg trace).res = .finished (some err) →
      ∃ ev ∈ trace, (∃ e1, ev = .recvErr e1) ∨
        (∃ m1 cds1 env1 csr1, ev = .recvMsg m1 (some cds1) env1 csr1)) := by
  refine ⟨?_, by simp [receiveData], ?_, fun trace err h =>
    receiveData_error_source trace reg err h⟩
  · by_cases hc : cds.ctxErr = .canceled <;> simp [receiveData, hc]
  · intro err hdial hunknown h
    simp only [receiveData, hunknown, hdial] at h
    exact h

/-- C2 witness: a clean cancel (cause `context.Canceled`) returns the
successful half-close result, and a dial-failure iteration followed by
nothing does not terminate with an error. -/
theorem receiveData_cancellation_witness :
    receiveData []
        [.recvMsg ⟨0, true, [], false⟩ (some ⟨.canceled, .canceled⟩)
          ⟨none, none, none⟩ none] =
      ⟨[.closeSend], [], [], .finished none⟩ :=
  (receiveData_cancellation [] ⟨0, true, [], false⟩ ⟨.canceled, .canceled⟩
      ⟨none, none, none⟩ none [] .eof).1.trans rfl

/-! ## C9 / C1: the orchestrator's error reporting -/

/-- Launching is insensitive to the recorded receive-loop results. -/
theorem tunnelLaunch_map_recv (r : Option GErr) : ∀ pairs : List PairRun,
    tunnelLaunch (pairs.map (fun p => { p with recvRes := r })) =
      ((tunnelLaunch pairs).1.map (fun p => { p with recvRes := r }),
        (tunnelLaunch pairs).2) := by
  intro pairs
  induction pairs with
  | nil => rfl
  | cons p ps ih =>
    cases hp : p.initErr with
    | some e => simp [tunnelLaunch, hp]
    | none =>
      cases hps : p.initSendErr with
      | some e => simp [tunnelLaunch, hp, hps]
      | none => simp [tunnelLaunch, hp, hps, ih]

/-- Error collection is insensitive to the recorded receive-loop
results. -/
theorem collectErrs_map_recv (r : Option GErr) : ∀ (pairs : List PairRun)
    (acc : Option GErr),
    List.foldl (fun errs p => xAppend errs p.sendRes) acc
        (pairs.map (fun p => { p with recvRes := r })) =
      List.foldl (fun errs p => xAppend errs p.sendRes) acc pairs := by
  intro pairs
  induction pairs with
  | nil => intro acc; rfl
  | cons p ps ih => intro acc; simp [List.foldl_cons, ih]

/-- C9: the value returned by every pair's Receive Loop is discarded at
the launch site: replacing all recorded receive-loop results by any
other value leaves `Tunnel`'s returned error unchanged — only the
cancellation cause and the Send Loop errors are surfaced. -/
theorem tunnel_ignores_receive_errors (dialErr : Option GErr)
    (ec ef : Bool) (pairs : List PairRun) (r : Option GErr) :
    Tunnel dialErr ec ef (pairs.map (fun p => { p with recvRes := r })) =
      Tunnel dialErr ec ef pairs := by
  cases dialErr with
  | some e => rfl
  | none =>
    simp only [Tunnel, tunnelLaunch_map_recv, collectErrs,
      collectErrs_map_recv]

/-- The spec's claim that a clean external cancel with no failures
yields a nil overall error from the orchestrator. -/
def tunnelCleanCancelNilClaim : Prop :=
  ∀ pairs : List PairRun,
    (∀ p ∈ pairs,
      p.initErr = none ∧ p.initSendErr = none ∧ p.sendRes = none) →
    Tunnel none true true pairs = none

/-- C1 counterexample: one healthy pair, external cancel, no failure
anywhere — `Tunnel` still returns `context.Cause(ctx)`, which a plain
external cancel sets to `context.Canceled`, merged with the (empty)
Send Loop errors: a non-nil error, not nil. -/
theorem tunnel_clean_cancel_cex : ¬ tunnelCleanCancelNilClaim :=
  fun h => absurd (h [⟨none, none, none, none⟩] (by decide)) (by decide)

/-- All pairs launched cleanly: the launch loop runs to the end with no
recorded cause. -/
theorem tunnelLaunch_all_ok {pairs : List PairRun}
    (h : ∀ p ∈ pairs, p.initErr = none ∧ p.initSendErr = none) :
    tunnelLaunch pairs = (pairs, none) := by
  induction pairs with
  | nil => rfl
  | cons p ps ih =>
    obtain ⟨h1, h2⟩ := h p (by simp)
    simp [tunnelLaunch, h1, h2, ih (fun q hq => h q (by simp [hq]))]

/-- No Send Loop error collected when every launched pair's Send Loop
returned nil. -/
theorem collectErrs_all_none {pairs : List PairRun}
    (h : ∀ p ∈ pairs, p.sendRes = none) : collectErrs pairs = none := by
  induction pairs with
  | nil => rfl
  | cons p ps ih =>
    have h1 := (h p (by simp)).symm
    simp only [collectErrs, List.foldl_cons]
    rw [← h1]
    simp only [xAppend]
    exact ih (fun q hq => h q (by simp [hq]))

/-- The first init failure stops the launch loop with its wrapped cause
and the pairs launched before it. -/
theorem tunnelLaunch_first_failure {good : List PairRun} (bad : PairRun)
    (rest : List PairRun) (e : GErr)
    (hgood : ∀ p ∈ good, p.initErr = none ∧ p.initSendErr = none)
    (hbad : bad.initErr = some e) :
    tunnelLaunch (good ++ bad :: rest) =
      (good, some (.wrapNew "failed initializing tunnel" e)) := by
  induction good with
  | nil => simp [tunnelLaunch, hbad]
  | cons p ps ih =>
    obtain ⟨h1, h2⟩ := hgood p (by simp)
    simp [tunnelLaunch, h1, h2, ih (fun q hq => hgood q (by simp [hq]))]

/-- C1 amended: a clean external cancel with no failures makes `Tunnel`
return exactly `context.Canceled` — the cancellation cause, not nil;
nil is returned when the shared context never became done and no Send
Loop failed; and when an init failure cancels the context (no external
cancel), `Tunnel` returns that wrapped failure merged with the Send
Loop errors collected from the pairs launched before it. -/
theorem tunnel_error_reporting (pairs good : List PairRun) (bad : PairRun)
    (rest : List PairRun) (e : GErr)
    (hclean : ∀ p ∈ pairs,
      p.initErr = none ∧ p.initSendErr = none ∧ p.sendRes = none)
    (hgood : ∀ p ∈ good, p.initErr = none ∧ p.initSendErr = none)
    (hbad : bad.initErr = some e) :
    Tunnel none true true pairs = some .canceled ∧
    Tunnel none false false pairs = none ∧
    Tunnel none false false (good ++ bad :: rest) =
      withWrapper (some (.wrapNew "failed initializing tunnel" e))
        (collectErrs good) := by
  have hlaunch := tunnelLaunch_all_ok
    (fun p hp => ⟨(hclean p hp).1, (hclean p hp).2.1⟩)
  have herrs := collectErrs_all_none (fun p hp => (hclean p hp).2.2)
  have hfail := tunnelLaunch_first_failure bad rest e hgood hbad
  refine ⟨?_, ?_, ?_⟩
  · simp [Tunnel, hlaunch, herrs, withWrapper]
  · simp [Tunnel, hlaunch, herrs, withWrapper]
  · simp [Tunnel, hfail]

/-- C1 witness: one healthy pair cancelled externally, one run with no
cancellation, and one init failure. -/
theorem tunnel_error_reporting_witness :
    Tunnel none true true [⟨none, none, none, none⟩] = some .canceled ∧
    Tunnel none false false [⟨none, none, none, none⟩] = none ∧
    Tunnel none false false [⟨some (.msg "conn refused"), none, none, none⟩] =
      some (.wrapNew "failed initializing tunnel" (.msg "conn refused")) := by
  have h := tunnel_error_reporting [⟨none, none, none, none⟩] []
    ⟨some (.msg "conn refused"), none, none, none⟩ [] (.msg "conn refused")
    (by decide) (by decide) rfl
  exact ⟨h.1, h.2.1, h.2.2.trans rfl⟩

/-! ## C10: the Inbound Reader's buffer-write-error path -/

/-- C10: when appending read bytes to the session buffer fails, the
Inbound Reader returns immediately: the session's `Open` flag is left
as it was and nothing is published on the readiness channel — so no
close frame can originate from this path — whereas a connection-read
failure sets `Open := false` and publishes exactly once. -/
theorem readFromSession_buf_write_error (session : Session)
    (chunk : List Nat) (e e1 : GErr) (rest rest1 : List ReadEvent)
    (hchunk : chunk ≠ []) :
    (readFromSession session (.readOk chunk false (some e) :: rest) =
      ⟨[.connRead session.Id, .lock session.Id, .unlock session.Id],
        session, true⟩) ∧
    ((readFromSession session
        (.readOk chunk false (some e) :: rest)).session.Open =
      session.Open) ∧
    (Action.publish session.Id ∉
      (readFromSession session (.readOk chunk false (some e) :: rest)).actions) ∧
    (readFromSession session (.readErr e1 :: rest1) =
      ⟨[.connRead session.Id, .publish session.Id],
        { session with Open := false }, true⟩) := by
  have hlen : chunk.length > 0 := List.length_pos.mpr hchunk
  have hmain : readFromSession session (.readOk chunk false (some e) :: rest) =
      ⟨[.connRead session.Id, .lock session.Id, .unlock session.Id],
        session, true⟩ := by
    simp [readFromSession, hlen]
  refine ⟨hmain, by rw [hmain], by rw [hmain]; simp, by simp [readFromSession]⟩

/-- C10 witness: a one-byte chunk whose buffer write fails. -/
theorem readFromSession_buf_write_error_witness :
    readFromSession ⟨9, [4], true⟩ [.readOk [1] false (some .eof)] =
      ⟨[.connRead 9, .lock 9, .unlock 9], ⟨9, [4], true⟩, true⟩ :=
  (readFromSession_buf_write_error ⟨9, [4], true⟩ [1] .eof .eof [] []
      (by decide)).1

end Kgrok
